import Mathlib

/-!
# WindowManager (Source/WindowManager.cpp, Source/WindowManager.hpp)

A shallow embedding of the X11/GLX window-and-input shim:

* `WindowManager.ProcessEvents`: one poll of the X event queue and the
  translation of the polled event into notifications for the coordinator;
* `WindowManager.Init`: the linear setup routine, as a function from the
  outcomes of the platform calls to the trace of calls and diagnostics.

Platform calls are recorded in a trace; notifications handed to
`gCoordinator.SendEvent` are recorded in the order they are sent.
-/

namespace WindowManager

/-! ## std::bitset<8> -/

/-- The number of bits of `std::bitset<8> mButtons`. -/
def bitsetSize : Nat := 8

/-- The member `std::bitset<8>::set(pos)`: sets bit `pos`; throws `std::out_of_range`
(here `none`) when `pos` is not a valid position. The value is kept modulo `2^8`. -/
def bitsetSet (b pos : Nat) : Option Nat :=
  if pos < bitsetSize then some ((b ||| 2 ^ pos) % 2 ^ bitsetSize) else none

/-- The member `std::bitset<8>::reset(pos)`: clears bit `pos` by masking with the 8-bit
complement of the bit; throws `std::out_of_range` (here `none`) when `pos` is
not a valid position. -/
def bitsetReset (b pos : Nat) : Option Nat :=
  if pos < bitsetSize then some ((b &&& ((2 ^ bitsetSize - 1) ^^^ 2 ^ pos)) % 2 ^ bitsetSize) else none

/-- The member `std::bitset<8>::count()`: how many of the eight bits are set. -/
def bitsetCount (b : Nat) : Nat :=
  ((List.range bitsetSize).filter fun j => b.testBit j).length

/-! ## Platform constants (X11/X.h, X11/keysymdef.h) -/

/-- Event type `KeyPress` of X11/X.h. -/
def KeyPress : Int := 2
/-- Event type `KeyRelease` of X11/X.h. -/
def KeyRelease : Int := 3
/-- Event type `Expose` of X11/X.h. -/
def Expose : Int := 12

/-- Key symbol `XK_Escape`. -/
def XK_Escape : Nat := 0xff1b
/-- Key symbol `XK_w`. -/
def XK_w : Nat := 0x77
/-- Key symbol `XK_a`. -/
def XK_a : Nat := 0x61
/-- Key symbol `XK_s`. -/
def XK_s : Nat := 0x73
/-- Key symbol `XK_d`. -/
def XK_d : Nat := 0x64
/-- Key symbol `XK_q`. -/
def XK_q : Nat := 0x71
/-- Key symbol `XK_e`. -/
def XK_e : Nat := 0x65

/-! ## Engine types declared outside the given sources -/

/-- Modelled from the spec: the enumeration `InputButtons` (W, A, S, D, Q, E)
is declared outside the given sources; its six values, converted with
`static_cast<std::size_t>`, are taken as parameters. -/
structure InputButtons where
  W : Nat
  A : Nat
  S : Nat
  D : Nat
  Q : Nat
  E : Nat
  deriving DecidableEq, Repr

/-- The six bit positions in declaration order. -/
def InputButtons.indices (ib : InputButtons) : List Nat :=
  [ib.W, ib.A, ib.S, ib.D, ib.Q, ib.E]

/-- The assumption on the enumeration: every index is a valid position of the
8-bit flag set. -/
def InputButtons.Below8 (ib : InputButtons) : Prop :=
  ∀ i ∈ ib.indices, i < 8

/-- The assumption on the enumeration: the six indices are pairwise distinct. -/
def InputButtons.Distinct (ib : InputButtons) : Prop :=
  ib.indices.Nodup

instance (ib : InputButtons) : Decidable ib.Below8 := by
  unfold InputButtons.Below8; infer_instance

instance (ib : InputButtons) : Decidable ib.Distinct := by
  unfold InputButtons.Distinct; infer_instance

/-- Modelled from the spec: the event identifiers `Events::Window::QUIT`,
`Events::Window::RESIZED` and `Events::Window::INPUT` used by the source are
declared outside the given sources. -/
inductive EventId
  | QUIT
  | RESIZED
  | INPUT
  deriving DecidableEq, Repr

/-- Modelled from the spec: the parameter identifiers
`Events::Window::Resized::WIDTH`, `Events::Window::Resized::HEIGHT` and
`Events::Window::Input::INPUT` are declared outside the given sources. -/
inductive ParamId
  | WIDTH
  | HEIGHT
  | INPUT
  deriving DecidableEq, Repr

/-- Modelled from the spec: the value of an event parameter, either an
`unsigned int` (resize width and height) or a `std::bitset<8>` (held keys). -/
inductive ParamValue
  | uint (n : Nat)
  | bits (b : Nat)
  deriving DecidableEq, Repr

/-- Modelled from the spec: the class `Event` is declared outside the given
sources; it is an event identifier with a keyed set of parameters. -/
structure Event where
  type : EventId
  params : List (ParamId × ParamValue)
  deriving DecidableEq, Repr

/-- Modelled from the spec: `Event(type)`, an event without parameters. -/
def Event.new (t : EventId) : Event := ⟨t, []⟩

/-- Modelled from the spec: `Event::SetParam(id, value)` stores `value` under
`id`, replacing an earlier value stored under the same `id`. -/
def Event.SetParam (e : Event) (id : ParamId) (v : ParamValue) : Event :=
  { e with params := (e.params.filter fun p => p.1 ≠ id) ++ [(id, v)] }

/-- Modelled from the spec: `Event::GetParam(id)`, the value stored under `id`. -/
def Event.GetParam (e : Event) (id : ParamId) : Option ParamValue :=
  (e.params.find? fun p => p.1 = id).map Prod.snd

/-! ## Events of the X queue and the platform calls of `ProcessEvents` -/

/-- The fields of `XEvent` read by `ProcessEvents`: `type` and `xkey.keycode`. -/
structure XEvent where
  type : Int
  keycode : Nat
  deriving DecidableEq, Repr

/-- The platform as seen by one call of `ProcessEvents`: the key symbol table
behind `XkbKeycodeToKeysym(mDisplay, code, 0, 0)` and the `int` fields
`width` and `height` that `XGetWindowAttributes` reports. -/
structure Platform where
  keysym : Nat → Nat
  width : Int
  height : Int

/-- Platform calls issued by `ProcessEvents` after the poll, with their data arguments. -/
inductive Call
  | XGetWindowAttributes
  | glViewport (x y width height : Int)
  | XkbKeycodeToKeysym (keycode : Nat)
  | XFlush
  deriving DecidableEq, Repr

/-- The members of `WindowManager` (handles as numbers, 0 for null) together
with the queue of pending window events selected by the event mask, the
notifications sent to the coordinator so far and the platform calls issued so far. -/
structure State where
  mDisplay : Nat
  mWindow : Nat
  mGlxContext : Nat
  mButtons : Nat
  queue : List XEvent
  sent : List Event
  calls : List Call
  deriving DecidableEq, Repr

/-- The call `gCoordinator.SendEvent(event)`. -/
def State.SendEvent (s : State) (e : Event) : State :=
  { s with sent := s.sent ++ [e] }

/-- A platform call is appended to the trace. -/
def State.call (s : State) (c : Call) : State :=
  { s with calls := s.calls ++ [c] }

/-- Conversion of an `int` to `unsigned int` (32 bits). -/
def toUnsigned (i : Int) : Nat := (i % 2 ^ 32).toNat

/-- The cast `static_cast<KeyCode>(code)`, `KeyCode` being `unsigned char`. -/
def toKeyCode (code : Nat) : Nat := code % 2 ^ 8

/-- The `Expose` branch of `ProcessEvents`. -/
def onExpose (p : Platform) (s : State) : State :=
  let s := s.call .XGetWindowAttributes
  let s := s.call (.glViewport 0 0 p.width p.height)
  let event := Event.new .RESIZED
  let event := event.SetParam .WIDTH (.uint (toUnsigned p.width))
  let event := event.SetParam .HEIGHT (.uint (toUnsigned p.height))
  s.SendEvent event

/-- A call `mButtons.set(pos)` inside the if-chain: the flag set is updated and
`buttonStateChanged` keeps its initial value `true`; when `set` throws, the
exception leaves `ProcessEvents` with the state as it is (`Except.error`). -/
def setButton (s : State) (pos : Nat) : Except State (State × Bool) :=
  match bitsetSet s.mButtons pos with
  | some b => .ok ({ s with mButtons := b }, true)
  | none => .error s

/-- A call `mButtons.reset(pos)` inside the if-chain, as `setButton`. -/
def resetButton (s : State) (pos : Nat) : Except State (State × Bool) :=
  match bitsetReset s.mButtons pos with
  | some b => .ok ({ s with mButtons := b }, true)
  | none => .error s

/-- The if-chain on the key symbol of the `KeyPress` branch: the state after
it and the value of `buttonStateChanged`. -/
def keyPressChain (ib : InputButtons) (key : Nat) (s : State) : Except State (State × Bool) :=
  if key = XK_Escape then .ok (s.SendEvent (Event.new .QUIT), true)
  else if key = XK_w then setButton s ib.W
  else if key = XK_a then setButton s ib.A
  else if key = XK_s then setButton s ib.S
  else if key = XK_d then setButton s ib.D
  else if key = XK_q then setButton s ib.Q
  else if key = XK_e then setButton s ib.E
  else .ok (s.call .XFlush, false)

/-- The if-chain on the key symbol of the `KeyRelease` branch: the state after
it and the value of `buttonStateChanged`. -/
def keyReleaseChain (ib : InputButtons) (key : Nat) (s : State) : Except State (State × Bool) :=
  if key = XK_Escape then .ok (s.SendEvent (Event.new .QUIT), true)
  else if key = XK_w then resetButton s ib.W
  else if key = XK_a then resetButton s ib.A
  else if key = XK_s then resetButton s ib.S
  else if key = XK_d then resetButton s ib.D
  else if key = XK_q then resetButton s ib.Q
  else if key = XK_e then resetButton s ib.E
  else .ok (s.call .XFlush, false)

/-- The tail shared by both key branches: when `buttonStateChanged` holds, an
`INPUT` event carrying the current `mButtons` is sent. -/
def sendInputIfChanged (r : State × Bool) : State :=
  if r.2 then r.1.SendEvent ((Event.new .INPUT).SetParam .INPUT (.bits r.1.mButtons)) else r.1

/-- The `KeyPress` branch of `ProcessEvents`. -/
def onKeyPress (ib : InputButtons) (p : Platform) (xEvent : XEvent) (s : State) :
    Except State State :=
  let code := toKeyCode xEvent.keycode
  let s := s.call (.XkbKeycodeToKeysym code)
  (keyPressChain ib (p.keysym code) s).map sendInputIfChanged

/-- The `KeyRelease` branch of `ProcessEvents`. -/
def onKeyRelease (ib : InputButtons) (p : Platform) (xEvent : XEvent) (s : State) :
    Except State State :=
  let code := toKeyCode xEvent.keycode
  let s := s.call (.XkbKeycodeToKeysym code)
  (keyReleaseChain ib (p.keysym code) s).map sendInputIfChanged

/-- The body of `ProcessEvents` once `XCheckWindowEvent` has returned `xEvent`:
the dispatch on `xEvent.type`. -/
def handleEvent (ib : InputButtons) (p : Platform) (xEvent : XEvent) (s : State) :
    Except State State :=
  if xEvent.type = Expose then .ok (onExpose p s)
  else if xEvent.type = KeyPress then onKeyPress ib p xEvent s
  else if xEvent.type = KeyRelease then onKeyRelease ib p xEvent s
  else .ok (s.call .XFlush)

/-- The call `XCheckWindowEvent(mDisplay, mWindow, mask, &xEvent)`: removes and returns
the first pending event selected by the mask, if there is one. -/
def XCheckWindowEvent (s : State) : Option (XEvent × State) :=
  match s.queue with
  | [] => none
  | e :: rest => some (e, { s with queue := rest })

/-- The function `WindowManager::ProcessEvents()`: a single poll, then the dispatch on the
polled event. `Except.ok` is a normal return; `Except.error` is a
`std::out_of_range` leaving the function, with the state at that point. -/
def ProcessEvents (ib : InputButtons) (p : Platform) (s : State) : Except State State :=
  match XCheckWindowEvent s with
  | some (xEvent, s1) => handleEvent ib p xEvent s1
  | none => .ok s

/-- The state in which a call leaves the program, returned or thrown. -/
def after : Except State State → State
  | .ok s => s
  | .error s => s

/-- Successive calls of `ProcessEvents`, one per entry of `ps` (the platform
as it is at each call); an exception ends the sequence. -/
def ProcessEventsTimes (ib : InputButtons) : List Platform → State → Except State State
  | [], s => .ok s
  | p :: ps, s =>
    match ProcessEvents ib p s with
    | .ok s1 => ProcessEventsTimes ib ps s1
    | .error s1 => .error s1

/-- A freshly constructed `WindowManager` (`mButtons` value-initialised to all
clear) in front of a queue of pending events; nothing sent or called yet. -/
def State.fresh (display window context : Nat) (queue : List XEvent) : State :=
  { mDisplay := display, mWindow := window, mGlxContext := context,
    mButtons := 0, queue := queue, sent := [], calls := [] }

/-! ## `Init` -/

/-- The pointer released by a call of `XFree` in `Init`. -/
inductive Freed
  | frameBufferConfigList
  | visualInfo
  deriving DecidableEq, Repr

/-- Platform calls issued by `Init`. -/
inductive InitCall
  | XOpenDisplay
  | glXQueryVersion
  | glXChooseFBConfig
  | XFree (data : Freed)
  | glXGetVisualFromFBConfig
  | XCreateColormap
  | XCreateWindow (x y width height : Nat)
  | XStoreName (title : String)
  | XMapWindow
  | glXGetProcAddress
  | glXCreateContextAttribsARB
  | XkbSetDetectableAutoRepeat
  | glXMakeCurrent
  | glClearColor
  | glXSwapBuffers
  | glEnable
  deriving DecidableEq, Repr

/-- The diagnostics `Init` writes to `std::cerr`. -/
inductive Diagnostic
  | openDisplay
  | invalidGlxVersion
  | chooseFBConfig
  | createWindow
  | createContextAttribsNotFound
  | createContextFailed
  | detectableAutoRepeatNotSet
  deriving DecidableEq, Repr

/-- The text of each diagnostic. -/
def Diagnostic.text : Diagnostic → String
  | .openDisplay => "Error: XOpenDisplay()\n"
  | .invalidGlxVersion => "Invalid GLX version.\n"
  | .chooseFBConfig => "Error: glXChooseFBConfig()\n"
  | .createWindow => "Error: XCreateWindow()\n"
  | .createContextAttribsNotFound => "glXCreateContextAttribsARB() not found\n"
  | .createContextFailed => "Failed to create an OpenGL context\n"
  | .detectableAutoRepeatNotSet =>
    "Detectable auto repeat not set - holding a key down will cause event spamming and delays.\n"

/-- What `Init` does, in order: platform calls and writes to `std::cerr`. -/
inductive InitAction
  | call (c : InitCall)
  | cerr (d : Diagnostic)
  deriving DecidableEq, Repr

/-- The outcomes of the platform calls of `Init` (pointers and handles as
numbers, 0 for null / `None`). -/
structure InitOutcomes where
  display : Nat
  queryVersion : Bool
  glxMajor : Int
  glxMinor : Int
  frameBufferConfigList : Nat
  visualInfo : Nat
  window : Nat
  createContextAttribsARB : Nat
  context : Nat
  detectableSet : Bool
  deriving DecidableEq, Repr

/-- How a run of `Init` ends: it runs to its last statement, it leaves through
one of the `return` statements, or it dereferences a null `visualInfo`
(undefined behaviour; the trace stops there). -/
inductive InitExit
  | completed
  | returned
  | nullDereference
  deriving DecidableEq, Repr

/-- The result of `Init`: what it did, how it ended and the members afterwards. -/
structure InitResult where
  trace : List InitAction
  exit : InitExit
  state : State
  deriving DecidableEq, Repr

/-- The condition of the GLX version check of `Init` under which the version
is reported invalid: `!glXQueryVersion(..) || ((glxMajor == 1) && (glxMinor < 3)) || (glxMajor < 1)`. -/
def glxVersionInvalid (queryVersion : Bool) (glxMajor glxMinor : Int) : Bool :=
  !queryVersion || ((glxMajor == 1) && decide (glxMinor < 3)) || decide (glxMajor < 1)

/-- The function `WindowManager::Init(windowTitle, windowWidth, windowHeight, windowPositionX, windowPositionY)`
against the platform outcomes `o`. -/
def Init (o : InitOutcomes) (windowTitle : String)
    (windowWidth windowHeight windowPositionX windowPositionY : Nat) (s : State) : InitResult :=
  -- Open the mDisplay
  let t := [InitAction.call .XOpenDisplay]
  let s := { s with mDisplay := o.display }
  if o.display = 0 then ⟨t ++ [.cerr .openDisplay], .returned, s⟩ else
  -- Get the proper frame buffer config
  let t := t ++ [.call .glXQueryVersion]
  if glxVersionInvalid o.queryVersion o.glxMajor o.glxMinor then
    ⟨t ++ [.cerr .invalidGlxVersion], .returned, s⟩ else
  let t := t ++ [.call .glXChooseFBConfig]
  if o.frameBufferConfigList = 0 then ⟨t ++ [.cerr .chooseFBConfig], .returned, s⟩ else
  let t := t ++ [.call (.XFree .frameBufferConfigList)]
  -- Create the window
  let t := t ++ [.call .glXGetVisualFromFBConfig]
  if o.visualInfo = 0 then ⟨t, .nullDereference, s⟩ else
  let t := t ++ [.call .XCreateColormap]
  let t := t ++ [.call (.XCreateWindow windowPositionX windowPositionY windowWidth windowHeight)]
  let s := { s with mWindow := o.window }
  if o.window = 0 then ⟨t ++ [.cerr .createWindow], .returned, s⟩ else
  let t := t ++ [.call (.XFree .visualInfo), .call (.XStoreName windowTitle), .call .XMapWindow]
  -- Create the context
  let t := t ++ [.call .glXGetProcAddress]
  if o.createContextAttribsARB = 0 then
    ⟨t ++ [.cerr .createContextAttribsNotFound], .returned, s⟩ else
  let t := t ++ [.call .glXCreateContextAttribsARB]
  let s := { s with mGlxContext := o.context }
  if o.context = 0 then ⟨t ++ [.cerr .createContextFailed], .returned, s⟩ else
  -- Generate KeyRelease event only when physical key is actually released
  let t := t ++ [.call .XkbSetDetectableAutoRepeat]
  let t := if !o.detectableSet then t ++ [.cerr .detectableAutoRepeatNotSet] else t
  let t := t ++ [.call .glXMakeCurrent, .call .glClearColor, .call .glXSwapBuffers, .call .glEnable]
  ⟨t, .completed, s⟩

/-! ## Vocabulary of the properties -/

/-- The notification `gCoordinator.SendEvent(Events::Window::QUIT)`. -/
def quitEvent : Event := ⟨.QUIT, []⟩

/-- A resize notification carrying a width and a height. -/
def resizedEvent (width height : Nat) : Event :=
  ⟨.RESIZED, [(.WIDTH, .uint width), (.HEIGHT, .uint height)]⟩

/-- An input notification carrying the bitset of held keys. -/
def inputEvent (buttons : Nat) : Event := ⟨.INPUT, [(.INPUT, .bits buttons)]⟩

/-- The shape "resize notification carrying a width and a height". -/
def IsResize (e : Event) : Prop := ∃ w h, e = resizedEvent w h

/-- The shape "input notification carrying the bitset of held keys". -/
def IsInput (e : Event) : Prop := ∃ b, e = inputEvent b

/-- The shape "quit notification", without parameters. -/
def IsQuit (e : Event) : Prop := e = quitEvent

/-- The key symbols of the six keys W, A, S, D, Q, E. -/
def sixKeys : List Nat := [XK_w, XK_a, XK_s, XK_d, XK_q, XK_e]

/-- The bit of the flag set that belongs to a key symbol: the `InputButtons`
index of the key when it is one of the six keys, and none otherwise. -/
def keyIndex (ib : InputButtons) (key : Nat) : Option Nat :=
  if key = XK_w then some ib.W
  else if key = XK_a then some ib.A
  else if key = XK_s then some ib.S
  else if key = XK_d then some ib.D
  else if key = XK_q then some ib.Q
  else if key = XK_e then some ib.E
  else none

/-- The key symbol that `ProcessEvents` looks up for a key event. -/
def keyOf (p : Platform) (xEvent : XEvent) : Nat := p.keysym (toKeyCode xEvent.keycode)

/-- The reference for the notifications of a key event whose key is not
Escape, given the flag set as it is after the update for the event: one input
notification carrying that flag set when the key is one of the six keys, no
notification otherwise. -/
def referenceKeyNotifications (key buttonsAfter : Nat) : List Event :=
  if key ∈ sixKeys then [inputEvent buttonsAfter] else []

/-- The states reachable from a freshly constructed `WindowManager`: events
may arrive in the queue at any time, and `ProcessEvents` may be called at any
time against any platform. -/
inductive Reachable (ib : InputButtons) : State → Prop
  | fresh (display window context : Nat) (queue : List XEvent) :
      Reachable ib (State.fresh display window context queue)
  | arrive (s : State) (events : List XEvent) :
      Reachable ib s → Reachable ib { s with queue := s.queue ++ events }
  | step (p : Platform) (s s1 : State) :
      Reachable ib s → ProcessEvents ib p s = .ok s1 → Reachable ib s1

/-- Every set bit of an 8-bit value belongs to one of the six keys. -/
def OnlyKeyBits (ib : InputButtons) (b : Nat) : Prop :=
  b < 256 ∧ ∀ j, b.testBit j = true → j ∈ ib.indices

/-- The setup step of `Init` a platform call belongs to, the steps being
delimited by the six checks: 1 display, 2 GLX version, 3 framebuffer
configuration, 4 window, 5 entry point `glXCreateContextAttribsARB`,
6 context, 7 everything after the last check. -/
def InitCall.step : InitCall → Nat
  | .XOpenDisplay => 1
  | .glXQueryVersion => 2
  | .glXChooseFBConfig => 3
  | .XFree .frameBufferConfigList => 4
  | .glXGetVisualFromFBConfig => 4
  | .XCreateColormap => 4
  | .XCreateWindow _ _ _ _ => 4
  | .XFree .visualInfo => 5
  | .XStoreName _ => 5
  | .XMapWindow => 5
  | .glXGetProcAddress => 5
  | .glXCreateContextAttribsARB => 6
  | .XkbSetDetectableAutoRepeat => 7
  | .glXMakeCurrent => 7
  | .glClearColor => 7
  | .glXSwapBuffers => 7
  | .glEnable => 7

/-- Whether the check that closes setup step `k` (1 to 6) fails for the outcomes `o`. -/
def InitOutcomes.checkFails (o : InitOutcomes) (k : Nat) : Prop :=
  (k = 1 ∧ o.display = 0) ∨
  (k = 2 ∧ glxVersionInvalid o.queryVersion o.glxMajor o.glxMinor = true) ∨
  (k = 3 ∧ o.frameBufferConfigList = 0) ∨
  (k = 4 ∧ o.window = 0) ∨
  (k = 5 ∧ o.createContextAttribsARB = 0) ∨
  (k = 6 ∧ o.context = 0)

/-- The last four calls of a completed `Init`. -/
def makeCurrentTail : List InitAction :=
  [.call .glXMakeCurrent, .call .glClearColor, .call .glXSwapBuffers, .call .glEnable]

/-! ## Concrete inputs -/

/-- The enumeration with its values in declaration order: W = 0, ..., E = 5. -/
def ibDefault : InputButtons := ⟨0, 1, 2, 3, 4, 5⟩

/-- A platform whose key table maps key code 9 to Escape, 25 to w, 38 to a and
every other code to F1 (0xffbe), behind an 800 x 600 window. -/
def demoPlatform : Platform :=
  { keysym := fun code =>
      if code = 9 then XK_Escape else if code = 25 then XK_w else if code = 38 then XK_a else 0xffbe,
    width := 800, height := 600 }

/-- A fresh `WindowManager` with valid handles in front of the given queue. -/
def demoState (queue : List XEvent) : State := State.fresh 1 1 1 queue

/-- Outcomes of a setup in which every call succeeds, GLX 1.4. -/
def goodOutcomes : InitOutcomes :=
  { display := 1, queryVersion := true, glxMajor := 1, glxMinor := 4,
    frameBufferConfigList := 1, visualInfo := 1, window := 1,
    createContextAttribsARB := 1, context := 1, detectableSet := true }

/-! ## Bits of the flag set -/

theorem testBit_eq_false_of_ge8 {b j : Nat} (hb : b < 256) (hj : 8 ≤ j) : b.testBit j = false := by
  apply Nat.testBit_lt_two_pow
  calc b < 2 ^ 8 := hb
    _ ≤ 2 ^ j := Nat.pow_le_pow_right (by norm_num) hj

theorem bitsetSet_spec {b pos : Nat} (hb : b < 256) (hp : pos < 8) :
    ∃ b1, bitsetSet b pos = some b1 ∧ b1 < 256 ∧
      ∀ j, b1.testBit j = (decide (j = pos) || b.testBit j) := by
  refine ⟨(b ||| 2 ^ pos) % 2 ^ 8, by simp [bitsetSet, bitsetSize, hp], Nat.mod_lt _ (by norm_num), ?_⟩
  intro j
  rw [Nat.testBit_mod_two_pow, Nat.testBit_or, Nat.testBit_two_pow]
  by_cases hj : j < 8
  · by_cases hjp : j = pos
    · subst hjp; simp [hj]
    · have : ¬ pos = j := fun h => hjp h.symm
      simp [hj, hjp, this]
  · have h8 : 8 ≤ j := Nat.le_of_not_lt hj
    have hjp : ¬ j = pos := by omega
    simp [hj, hjp, testBit_eq_false_of_ge8 hb h8]

theorem bitsetReset_spec {b pos : Nat} (hb : b < 256) (hp : pos < 8) :
    ∃ b1, bitsetReset b pos = some b1 ∧ b1 < 256 ∧
      ∀ j, b1.testBit j = (!decide (j = pos) && b.testBit j) := by
  refine ⟨(b &&& ((2 ^ 8 - 1) ^^^ 2 ^ pos)) % 2 ^ 8, by simp [bitsetReset, bitsetSize, hp],
    Nat.mod_lt _ (by norm_num), ?_⟩
  intro j
  rw [Nat.testBit_mod_two_pow, Nat.testBit_and, Nat.testBit_xor, Nat.testBit_two_pow_sub_one,
    Nat.testBit_two_pow]
  by_cases hj : j < 8
  · by_cases hjp : j = pos
    · subst hjp; simp [hj]
    · have : ¬ pos = j := fun h => hjp h.symm
      simp [hj, hjp, this]
  · have h8 : 8 ≤ j := Nat.le_of_not_lt hj
    have hjp : ¬ j = pos := by omega
    simp [hj, hjp, testBit_eq_false_of_ge8 hb h8]

/-! ## The key table -/

theorem keyIndex_escape (ib : InputButtons) : keyIndex ib XK_Escape = none := by
  simp [keyIndex, XK_Escape, XK_w, XK_a, XK_s, XK_d, XK_q, XK_e]

theorem keyIndex_isSome_iff (ib : InputButtons) (key : Nat) :
    (keyIndex ib key).isSome = true ↔ key ∈ sixKeys := by
  unfold keyIndex sixKeys
  split_ifs <;> simp_all

theorem keyIndex_eq_none_iff (ib : InputButtons) (key : Nat) :
    keyIndex ib key = none ↔ key ∉ sixKeys := by
  rw [← keyIndex_isSome_iff ib key]
  cases keyIndex ib key <;> simp

theorem keyIndex_mem_indices {ib : InputButtons} {key i : Nat} (h : keyIndex ib key = some i) :
    i ∈ ib.indices := by
  unfold keyIndex at h
  unfold InputButtons.indices
  split_ifs at h <;> simp_all

theorem keyIndex_lt {ib : InputButtons} (h8 : ib.Below8) {key i : Nat}
    (h : keyIndex ib key = some i) : i < 8 :=
  h8 i (keyIndex_mem_indices h)

theorem keyPressChain_eq (ib : InputButtons) (key : Nat) (s : State) :
    keyPressChain ib key s =
      if key = XK_Escape then .ok (s.SendEvent quitEvent, true)
      else match keyIndex ib key with
        | some i => setButton s i
        | none => .ok (s.call .XFlush, false) := by
  unfold keyPressChain keyIndex
  split_ifs <;> rfl

theorem keyReleaseChain_eq (ib : InputButtons) (key : Nat) (s : State) :
    keyReleaseChain ib key s =
      if key = XK_Escape then .ok (s.SendEvent quitEvent, true)
      else match keyIndex ib key with
        | some i => resetButton s i
        | none => .ok (s.call .XFlush, false) := by
  unfold keyReleaseChain keyIndex
  split_ifs <;> rfl

/-! ## One call of `ProcessEvents` -/

theorem ProcessEvents_nil (ib : InputButtons) (p : Platform) (s : State) (hq : s.queue = []) :
    ProcessEvents ib p s = .ok s := by
  simp [ProcessEvents, XCheckWindowEvent, hq]

theorem ProcessEvents_cons (ib : InputButtons) (p : Platform) (s : State) (e : XEvent)
    (rest : List XEvent) (hq : s.queue = e :: rest) :
    ProcessEvents ib p s = handleEvent ib p e { s with queue := rest } := by
  simp [ProcessEvents, XCheckWindowEvent, hq]

theorem handleEvent_expose (ib : InputButtons) (p : Platform) (e : XEvent) (s : State)
    (h : e.type = Expose) :
    handleEvent ib p e s =
      .ok { s with
        sent := s.sent ++ [resizedEvent (toUnsigned p.width) (toUnsigned p.height)],
        calls := s.calls ++ [.XGetWindowAttributes, .glViewport 0 0 p.width p.height] } := by
  simp [handleEvent, h, onExpose, State.call, State.SendEvent, Event.new, Event.SetParam,
    resizedEvent]

theorem handleEvent_other (ib : InputButtons) (p : Platform) (e : XEvent) (s : State)
    (h1 : e.type ≠ Expose) (h2 : e.type ≠ KeyPress) (h3 : e.type ≠ KeyRelease) :
    handleEvent ib p e s = .ok { s with calls := s.calls ++ [.XFlush] } := by
  simp [handleEvent, h1, h2, h3, State.call]

/-- The state right after the key symbol lookup of a key branch. -/
theorem handleEvent_keyPress (ib : InputButtons) (p : Platform) (e : XEvent) (s : State)
    (h : e.type = KeyPress) :
    handleEvent ib p e s =
      (keyPressChain ib (keyOf p e) (s.call (.XkbKeycodeToKeysym (toKeyCode e.keycode)))).map
        sendInputIfChanged := by
  simp [handleEvent, h, onKeyPress, keyOf, KeyPress, Expose]

theorem handleEvent_keyRelease (ib : InputButtons) (p : Platform) (e : XEvent) (s : State)
    (h : e.type = KeyRelease) :
    handleEvent ib p e s =
      (keyReleaseChain ib (keyOf p e) (s.call (.XkbKeycodeToKeysym (toKeyCode e.keycode)))).map
        sendInputIfChanged := by
  simp [handleEvent, h, onKeyRelease, keyOf, KeyPress, KeyRelease, Expose]

/-- A key event with key Escape, pressed or released: `QUIT` is sent, then
`INPUT` with the flag set, which is left as it was. -/
theorem handleEvent_escape (ib : InputButtons) (p : Platform) (e : XEvent) (s : State)
    (h : e.type = KeyPress ∨ e.type = KeyRelease) (hk : keyOf p e = XK_Escape) :
    handleEvent ib p e s =
      .ok { s with
        sent := s.sent ++ [quitEvent, inputEvent s.mButtons],
        calls := s.calls ++ [.XkbKeycodeToKeysym (toKeyCode e.keycode)] } := by
  rcases h with h | h
  · rw [handleEvent_keyPress ib p e s h, keyPressChain_eq, if_pos hk]
    simp [Except.map, sendInputIfChanged, State.SendEvent, State.call, Event.new, Event.SetParam,
      inputEvent, quitEvent]
  · rw [handleEvent_keyRelease ib p e s h, keyReleaseChain_eq, if_pos hk]
    simp [Except.map, sendInputIfChanged, State.SendEvent, State.call, Event.new, Event.SetParam,
      inputEvent, quitEvent]

/-- A key event with a key that is neither Escape nor one of the six keys:
nothing is sent and the flag set is left as it was. -/
theorem handleEvent_unmapped (ib : InputButtons) (p : Platform) (e : XEvent) (s : State)
    (h : e.type = KeyPress ∨ e.type = KeyRelease) (hk : keyOf p e ≠ XK_Escape)
    (hn : keyIndex ib (keyOf p e) = none) :
    handleEvent ib p e s =
      .ok { s with
        calls := s.calls ++ [.XkbKeycodeToKeysym (toKeyCode e.keycode), .XFlush] } := by
  rcases h with h | h
  · rw [handleEvent_keyPress ib p e s h, keyPressChain_eq, if_neg hk, hn]
    simp [Except.map, sendInputIfChanged, State.call]
  · rw [handleEvent_keyRelease ib p e s h, keyReleaseChain_eq, if_neg hk, hn]
    simp [Except.map, sendInputIfChanged, State.call]

/-- A `KeyPress` of one of the six keys, the index being a valid position. -/
theorem handleEvent_press_mapped (ib : InputButtons) (p : Platform) (e : XEvent) (s : State)
    (h : e.type = KeyPress) {i b1 : Nat} (hi : keyIndex ib (keyOf p e) = some i)
    (hb : bitsetSet s.mButtons i = some b1) :
    handleEvent ib p e s =
      .ok { s with
        mButtons := b1,
        sent := s.sent ++ [inputEvent b1],
        calls := s.calls ++ [.XkbKeycodeToKeysym (toKeyCode e.keycode)] } := by
  have hk : keyOf p e ≠ XK_Escape := by
    intro hk; rw [hk, keyIndex_escape] at hi; cases hi
  rw [handleEvent_keyPress ib p e s h, keyPressChain_eq, if_neg hk, hi]
  simp [setButton, State.call, hb, Except.map, sendInputIfChanged, State.SendEvent, Event.new,
    Event.SetParam, inputEvent]

/-- A `KeyRelease` of one of the six keys, the index being a valid position. -/
theorem handleEvent_release_mapped (ib : InputButtons) (p : Platform) (e : XEvent) (s : State)
    (h : e.type = KeyRelease) {i b1 : Nat} (hi : keyIndex ib (keyOf p e) = some i)
    (hb : bitsetReset s.mButtons i = some b1) :
    handleEvent ib p e s =
      .ok { s with
        mButtons := b1,
        sent := s.sent ++ [inputEvent b1],
        calls := s.calls ++ [.XkbKeycodeToKeysym (toKeyCode e.keycode)] } := by
  have hk : keyOf p e ≠ XK_Escape := by
    intro hk; rw [hk, keyIndex_escape] at hi; cases hi
  rw [handleEvent_keyRelease ib p e s h, keyReleaseChain_eq, if_neg hk, hi]
  simp [resetButton, State.call, hb, Except.map, sendInputIfChanged, State.SendEvent, Event.new,
    Event.SetParam, inputEvent]

/-- A key event of one of the six keys whose index is not a valid position:
`set` or `reset` throws before anything is sent. -/
theorem handleEvent_mapped_throw (ib : InputButtons) (p : Platform) (e : XEvent) (s : State)
    (h : e.type = KeyPress ∨ e.type = KeyRelease) {i : Nat}
    (hi : keyIndex ib (keyOf p e) = some i) (h8 : ¬ i < 8) :
    handleEvent ib p e s =
      .error { s with calls := s.calls ++ [.XkbKeycodeToKeysym (toKeyCode e.keycode)] } := by
  have hk : keyOf p e ≠ XK_Escape := by
    intro hk; rw [hk, keyIndex_escape] at hi; cases hi
  rcases h with h | h
  · rw [handleEvent_keyPress ib p e s h, keyPressChain_eq, if_neg hk, hi]
    simp [setButton, bitsetSet, bitsetSize, h8, State.call, Except.map]
  · rw [handleEvent_keyRelease ib p e s h, keyReleaseChain_eq, if_neg hk, hi]
    simp [resetButton, bitsetReset, bitsetSize, h8, State.call, Except.map]

theorem quitEvent_ne_inputEvent (b : Nat) : quitEvent ≠ inputEvent b := by
  simp [quitEvent, inputEvent]

theorem quitEvent_ne_resizedEvent (w h : Nat) : quitEvent ≠ resizedEvent w h := by
  simp [quitEvent, resizedEvent]

/-- The notifications of one dispatch, whatever the enumeration values: the
list sent, its shapes, when it contains `QUIT`, and its length when the event
is not a key event with key Escape. -/
theorem handleEvent_sent (ib : InputButtons) (p : Platform) (e : XEvent) (s : State) :
    ∃ l, (after (handleEvent ib p e s)).sent = s.sent ++ l ∧
      (∀ n ∈ l, IsResize n ∨ IsInput n ∨ IsQuit n) ∧
      (quitEvent ∈ l ↔ (e.type = KeyPress ∨ e.type = KeyRelease) ∧ keyOf p e = XK_Escape) ∧
      (¬ ((e.type = KeyPress ∨ e.type = KeyRelease) ∧ keyOf p e = XK_Escape) → l.length ≤ 1) := by
  by_cases hE : e.type = Expose
  · refine ⟨[resizedEvent (toUnsigned p.width) (toUnsigned p.height)], ?_, ?_, ?_, fun _ => ?_⟩
    · rw [handleEvent_expose ib p e s hE]; rfl
    · intro n hn
      rw [List.mem_singleton] at hn
      exact Or.inl ⟨_, _, hn⟩
    · have h1 : e.type ≠ KeyPress := by rw [hE]; decide
      have h2 : e.type ≠ KeyRelease := by rw [hE]; decide
      simp [h1, h2, quitEvent_ne_resizedEvent]
    · simp
  · by_cases hK : e.type = KeyPress ∨ e.type = KeyRelease
    · by_cases hk : keyOf p e = XK_Escape
      · refine ⟨[quitEvent, inputEvent s.mButtons], ?_, ?_, ?_, fun h => absurd ⟨hK, hk⟩ h⟩
        · rw [handleEvent_escape ib p e s hK hk]; rfl
        · intro n hn
          simp only [List.mem_cons, List.mem_singleton, List.not_mem_nil, or_false] at hn
          rcases hn with hn | hn
          · exact Or.inr (Or.inr hn)
          · exact Or.inr (Or.inl ⟨_, hn⟩)
        · simp [hK, hk]
      · cases hi : keyIndex ib (keyOf p e) with
        | none =>
          refine ⟨[], ?_, ?_, ?_, fun _ => ?_⟩
          · rw [handleEvent_unmapped ib p e s hK hk hi]; simp [after]
          · intro n hn; cases hn
          · simp [hk]
          · simp
        | some i =>
          by_cases h8 : i < 8
          · have hsent : ∃ b1, (after (handleEvent ib p e s)).sent = s.sent ++ [inputEvent b1] := by
              rcases hK with h | h
              · have hb : bitsetSet s.mButtons i = some ((s.mButtons ||| 2 ^ i) % 2 ^ 8) := by
                  simp [bitsetSet, bitsetSize, h8]
                exact ⟨_, by rw [handleEvent_press_mapped ib p e s h hi hb]; rfl⟩
              · have hb : bitsetReset s.mButtons i =
                    some ((s.mButtons &&& ((2 ^ 8 - 1) ^^^ 2 ^ i)) % 2 ^ 8) := by
                  simp [bitsetReset, bitsetSize, h8]
                exact ⟨_, by rw [handleEvent_release_mapped ib p e s h hi hb]; rfl⟩
            obtain ⟨b1, hb1⟩ := hsent
            refine ⟨[inputEvent b1], hb1, ?_, ?_, fun _ => ?_⟩
            · intro n hn
              rw [List.mem_singleton] at hn
              exact Or.inr (Or.inl ⟨_, hn⟩)
            · simp [hk, quitEvent_ne_inputEvent]
            · simp
          · refine ⟨[], ?_, ?_, ?_, fun _ => ?_⟩
            · rw [handleEvent_mapped_throw ib p e s hK hi h8]; simp [after]
            · intro n hn; cases hn
            · simp [hk]
            · simp
    · refine ⟨[], ?_, ?_, ?_, fun _ => ?_⟩
      · rw [handleEvent_other ib p e s hE (fun h => hK (Or.inl h)) (fun h => hK (Or.inr h))]
        simp [after]
      · intro n hn; cases hn
      · simp [hK]
      · simp

/-! ## Claims about `ProcessEvents` -/

/-- Apart from a key event with key Escape, one call of `ProcessEvents` sends
at most one notification, whatever the enumeration, platform and state. -/
theorem ProcessEvents_at_most_one_unless_escape (ib : InputButtons) (p : Platform) (s : State) :
    ∃ l, (after (ProcessEvents ib p s)).sent = s.sent ++ l ∧
      ((¬ ∃ e rest, s.queue = e :: rest ∧
          (e.type = KeyPress ∨ e.type = KeyRelease) ∧ keyOf p e = XK_Escape) →
        l.length ≤ 1) := by
  cases hq : s.queue with
  | nil =>
    refine ⟨[], ?_, fun _ => by simp⟩
    rw [ProcessEvents_nil ib p s hq]; simp [after]
  | cons e rest =>
    obtain ⟨l, h1, -, -, h4⟩ := handleEvent_sent ib p e { s with queue := rest }
    refine ⟨l, ?_, fun hne => h4 (fun h => hne ⟨e, rest, rfl, h⟩)⟩
    rw [ProcessEvents_cons ib p s e rest hq]; exact h1

/-- C1 (the code at the failing input): a `KeyPress` whose key is Escape makes
`ProcessEvents` send two notifications for the one event, `QUIT` and then
`INPUT` carrying the flag set, although the flag set stays as it was; the
bound of one notification per event is exceeded. -/
theorem C1_escape_press_sends_two :
    ProcessEvents ibDefault demoPlatform (demoState [⟨KeyPress, 9⟩]) =
        .ok { demoState [] with
          sent := [quitEvent, inputEvent 0], calls := [.XkbKeycodeToKeysym 9] } ∧
      ¬ (after (ProcessEvents ibDefault demoPlatform (demoState [⟨KeyPress, 9⟩]))).sent.length ≤
        (demoState [⟨KeyPress, 9⟩]).sent.length + 1 ∧
      (after (ProcessEvents ibDefault demoPlatform (demoState [⟨KeyPress, 9⟩]))).mButtons =
        (demoState [⟨KeyPress, 9⟩]).mButtons :=
  ⟨rfl, by decide, rfl⟩

/-- C2 (counterexample): on a `KeyRelease` whose key is Escape, `ProcessEvents`
sends a notification that is neither a resize nor an input notification. -/
theorem C2_counterexample :
    ∃ n ∈ (after (ProcessEvents ibDefault demoPlatform (demoState [⟨KeyRelease, 9⟩]))).sent,
      ¬ (IsResize n ∨ IsInput n) := by
  refine ⟨quitEvent, ?_, ?_⟩
  · have h : (after (ProcessEvents ibDefault demoPlatform (demoState [⟨KeyRelease, 9⟩]))).sent =
        [quitEvent, inputEvent 0] := rfl
    rw [h]; simp
  · rintro (⟨w, h, hn⟩ | ⟨b, hn⟩)
    · exact quitEvent_ne_resizedEvent w h hn
    · exact quitEvent_ne_inputEvent b hn

/-- C2 (amended): for every enumeration, platform and state, the notifications
one call of `ProcessEvents` sends each have one of three shapes, resize with
width and height, input with the bitset of held keys, or the parameterless
quit notification; a quit notification is sent exactly when the polled event
is a `KeyPress` or `KeyRelease` whose key is Escape. -/
theorem C2_three_shapes (ib : InputButtons) (p : Platform) (s : State) :
    ∃ l, (after (ProcessEvents ib p s)).sent = s.sent ++ l ∧
      (∀ n ∈ l, IsResize n ∨ IsInput n ∨ IsQuit n) ∧
      (quitEvent ∈ l ↔ ∃ e rest, s.queue = e :: rest ∧
        (e.type = KeyPress ∨ e.type = KeyRelease) ∧ keyOf p e = XK_Escape) := by
  cases hq : s.queue with
  | nil =>
    refine ⟨[], ?_, ?_, ?_⟩
    · rw [ProcessEvents_nil ib p s hq]; simp [after]
    · intro n hn; cases hn
    · simp
  | cons e rest =>
    obtain ⟨l, h1, h2, h3, -⟩ := handleEvent_sent ib p e { s with queue := rest }
    refine ⟨l, ?_, h2, ?_⟩
    · rw [ProcessEvents_cons ib p s e rest hq]; exact h1
    · rw [h3]
      constructor
      · intro h; exact ⟨e, rest, rfl, h⟩
      · rintro ⟨e1, rest1, heq, h⟩
        cases heq; exact h

/-- With valid positions, one dispatch returns normally. -/
theorem handleEvent_ok (ib : InputButtons) (h8 : ib.Below8) (p : Platform) (e : XEvent)
    (s : State) : ∃ s1, handleEvent ib p e s = .ok s1 ∧ s1.queue = s.queue := by
  by_cases hE : e.type = Expose
  · exact ⟨_, handleEvent_expose ib p e s hE, rfl⟩
  · by_cases hK : e.type = KeyPress ∨ e.type = KeyRelease
    · by_cases hk : keyOf p e = XK_Escape
      · exact ⟨_, handleEvent_escape ib p e s hK hk, rfl⟩
      · cases hi : keyIndex ib (keyOf p e) with
        | none => exact ⟨_, handleEvent_unmapped ib p e s hK hk hi, rfl⟩
        | some i =>
          have hlt : i < 8 := keyIndex_lt h8 hi
          rcases hK with h | h
          · have hb : bitsetSet s.mButtons i = some ((s.mButtons ||| 2 ^ i) % 2 ^ 8) := by
              simp [bitsetSet, bitsetSize, hlt]
            exact ⟨_, handleEvent_press_mapped ib p e s h hi hb, rfl⟩
          · have hb : bitsetReset s.mButtons i =
                some ((s.mButtons &&& ((2 ^ 8 - 1) ^^^ 2 ^ i)) % 2 ^ 8) := by
              simp [bitsetReset, bitsetSize, hlt]
            exact ⟨_, handleEvent_release_mapped ib p e s h hi hb, rfl⟩
    · exact ⟨_, handleEvent_other ib p e s hE (fun h => hK (Or.inl h)) (fun h => hK (Or.inr h)),
        rfl⟩

/-- Whatever the enumeration values, one dispatch leaves the queue alone. -/
theorem handleEvent_queue (ib : InputButtons) (p : Platform) (e : XEvent) (s : State) :
    (after (handleEvent ib p e s)).queue = s.queue := by
  by_cases hE : e.type = Expose
  · rw [handleEvent_expose ib p e s hE]; rfl
  · by_cases hK : e.type = KeyPress ∨ e.type = KeyRelease
    · by_cases hk : keyOf p e = XK_Escape
      · rw [handleEvent_escape ib p e s hK hk]; rfl
      · cases hi : keyIndex ib (keyOf p e) with
        | none => rw [handleEvent_unmapped ib p e s hK hk hi]; rfl
        | some i =>
          by_cases hlt : i < 8
          · rcases hK with h | h
            · have hb : bitsetSet s.mButtons i = some ((s.mButtons ||| 2 ^ i) % 2 ^ 8) := by
                simp [bitsetSet, bitsetSize, hlt]
              rw [handleEvent_press_mapped ib p e s h hi hb]; rfl
            · have hb : bitsetReset s.mButtons i =
                  some ((s.mButtons &&& ((2 ^ 8 - 1) ^^^ 2 ^ i)) % 2 ^ 8) := by
                simp [bitsetReset, bitsetSize, hlt]
              rw [handleEvent_release_mapped ib p e s h hi hb]; rfl
          · rw [handleEvent_mapped_throw ib p e s hK hi hlt]; rfl
    · rw [handleEvent_other ib p e s hE (fun h => hK (Or.inl h)) (fun h => hK (Or.inr h))]; rfl

/-- With valid positions, one call of `ProcessEvents` returns normally and
removes the head of the queue. -/
theorem ProcessEvents_ok (ib : InputButtons) (h8 : ib.Below8) (p : Platform) (s : State) :
    ∃ s1, ProcessEvents ib p s = .ok s1 ∧ s1.queue = s.queue.tail := by
  cases hq : s.queue with
  | nil => exact ⟨s, ProcessEvents_nil ib p s hq, by simp [hq]⟩
  | cons e rest =>
    obtain ⟨s1, h1, h2⟩ := handleEvent_ok ib h8 p e { s with queue := rest }
    exact ⟨s1, by rw [ProcessEvents_cons ib p s e rest hq]; exact h1, by simpa using h2⟩

theorem ProcessEventsTimes_ok (ib : InputButtons) (h8 : ib.Below8) (ps : List Platform) :
    ∀ s : State, ∃ s1, ProcessEventsTimes ib ps s = .ok s1 ∧ s1.queue = s.queue.drop ps.length := by
  induction ps with
  | nil => intro s; exact ⟨s, rfl, by simp⟩
  | cons p ps ih =>
    intro s
    obtain ⟨s1, h1, hq1⟩ := ProcessEvents_ok ib h8 p s
    obtain ⟨s2, h2, hq2⟩ := ih s1
    refine ⟨s2, ?_, ?_⟩
    · simp only [ProcessEventsTimes, h1]; exact h2
    · rw [hq2, hq1, List.length_cons, List.drop_tail]

/-- C3 (counterexample): with two key presses queued, one call of
`ProcessEvents` returns with the second key press still queued. -/
theorem C3_counterexample :
    ProcessEvents ibDefault demoPlatform (demoState [⟨KeyPress, 25⟩, ⟨KeyPress, 38⟩]) =
        .ok { demoState [⟨KeyPress, 38⟩] with
          mButtons := 1, sent := [inputEvent 1], calls := [.XkbKeycodeToKeysym 25] } ∧
      (after (ProcessEvents ibDefault demoPlatform
        (demoState [⟨KeyPress, 25⟩, ⟨KeyPress, 38⟩]))).queue ≠ [] :=
  ⟨rfl, by
    have h : (after (ProcessEvents ibDefault demoPlatform
        (demoState [⟨KeyPress, 25⟩, ⟨KeyPress, 38⟩]))).queue = [⟨KeyPress, 38⟩] := rfl
    rw [h]; simp⟩

/-- C3 (amended): one call of `ProcessEvents` takes exactly the first pending
event off the queue and leaves every later event queued, in order; with valid
`InputButtons` positions, `k` successive calls return normally and leave the
queue without its first `k` events, so a queue of `n` events is empty after
`n` calls. -/
theorem C3_one_event_per_call (ib : InputButtons) (p : Platform) (s : State)
    (ps : List Platform) :
    (after (ProcessEvents ib p s)).queue = s.queue.tail ∧
    (ib.Below8 →
      (∃ s1, ProcessEventsTimes ib ps s = .ok s1 ∧ s1.queue = s.queue.drop ps.length) ∧
      (ps.length = s.queue.length → ∃ s1, ProcessEventsTimes ib ps s = .ok s1 ∧ s1.queue = [])) := by
  refine ⟨?_, fun h8 => ⟨ProcessEventsTimes_ok ib h8 ps s, fun hlen => ?_⟩⟩
  · cases hq : s.queue with
    | nil => rw [ProcessEvents_nil ib p s hq]; simp [after, hq]
    | cons e rest =>
      rw [ProcessEvents_cons ib p s e rest hq, handleEvent_queue]; rfl
  · obtain ⟨s1, h1, h2⟩ := ProcessEventsTimes_ok ib h8 ps s
    exact ⟨s1, h1, by rw [h2, hlen, List.drop_length]⟩

/-- C3 (amended), at a concrete queue of two key presses. -/
theorem C3_one_event_per_call_witness :
    ibDefault.Below8 ∧
    (∃ s1, ProcessEventsTimes ibDefault [demoPlatform, demoPlatform]
        (demoState [⟨KeyPress, 25⟩, ⟨KeyPress, 38⟩]) = .ok s1 ∧ s1.queue = []) :=
  ⟨by decide,
    ((C3_one_event_per_call ibDefault demoPlatform (demoState [⟨KeyPress, 25⟩, ⟨KeyPress, 38⟩])
      [demoPlatform, demoPlatform]).2 (by decide)).2 rfl⟩

/-- A key event of one of the six keys, the positions being valid: the result
of the dispatch and the bits of the new flag set. -/
theorem handleEvent_mapped (ib : InputButtons) (h8 : ib.Below8) (p : Platform) (e : XEvent)
    (s : State) (hb : s.mButtons < 256) (hK : e.type = KeyPress ∨ e.type = KeyRelease) {i : Nat}
    (hi : keyIndex ib (keyOf p e) = some i) :
    ∃ b1, handleEvent ib p e s =
        .ok { s with
          mButtons := b1,
          sent := s.sent ++ [inputEvent b1],
          calls := s.calls ++ [.XkbKeycodeToKeysym (toKeyCode e.keycode)] } ∧
      b1 < 256 ∧
      (e.type = KeyPress → ∀ j, b1.testBit j = (decide (j = i) || s.mButtons.testBit j)) ∧
      (e.type = KeyRelease → ∀ j, b1.testBit j = (!decide (j = i) && s.mButtons.testBit j)) := by
  have hlt : i < 8 := keyIndex_lt h8 hi
  rcases hK with h | h
  · obtain ⟨b1, hset, hb1, hbits⟩ := bitsetSet_spec hb hlt
    refine ⟨b1, handleEvent_press_mapped ib p e s h hi hset, hb1, fun _ => hbits, fun h2 => ?_⟩
    rw [h] at h2; exact absurd h2 (by decide)
  · obtain ⟨b1, hset, hb1, hbits⟩ := bitsetReset_spec hb hlt
    refine ⟨b1, handleEvent_release_mapped ib p e s h hi hset, hb1, fun h2 => ?_, fun _ => hbits⟩
    rw [h] at h2; exact absurd h2 (by decide)

/-- C4: with valid `InputButtons` positions, for every 8-bit flag set and
every key event taken by `ProcessEvents`, the new flag set is the old one with
the bit of the key set (`KeyPress` of one of the six keys) or cleared (`KeyRelease`
of one of the six keys), every other bit being unchanged, and it is the old
flag set itself for every other key, Escape included. -/
theorem C4_flag_set_records_held_keys (ib : InputButtons) (h8 : ib.Below8) (p : Platform)
    (s : State) (e : XEvent) (rest : List XEvent) (hq : s.queue = e :: rest)
    (hb : s.mButtons < 256) (hK : e.type = KeyPress ∨ e.type = KeyRelease) :
    ∃ s1, ProcessEvents ib p s = .ok s1 ∧ s1.mButtons < 256 ∧
      (∀ i, keyIndex ib (keyOf p e) = some i →
        (e.type = KeyPress → s1.mButtons.testBit i = true) ∧
        (e.type = KeyRelease → s1.mButtons.testBit i = false) ∧
        (∀ j, j ≠ i → s1.mButtons.testBit j = s.mButtons.testBit j)) ∧
      (keyIndex ib (keyOf p e) = none → s1.mButtons = s.mButtons) ∧
      (keyOf p e = XK_Escape → s1.mButtons = s.mButtons) := by
  rw [ProcessEvents_cons ib p s e rest hq]
  have hb1 : ({ s with queue := rest } : State).mButtons < 256 := hb
  by_cases hk : keyOf p e = XK_Escape
  · refine ⟨_, handleEvent_escape ib p e _ hK hk, hb, ?_, fun _ => rfl, fun _ => rfl⟩
    intro i hi
    rw [hk, keyIndex_escape] at hi; cases hi
  · cases hi : keyIndex ib (keyOf p e) with
    | none =>
      refine ⟨_, handleEvent_unmapped ib p e _ hK hk hi, hb, ?_, fun _ => rfl, fun _ => rfl⟩
      intro i hi1; cases hi1
    | some i =>
      obtain ⟨b1, hres, hlt, hpress, hrelease⟩ := handleEvent_mapped ib h8 p e _ hb1 hK hi
      refine ⟨_, hres, hlt, ?_, fun h => (by cases h), fun h => absurd h hk⟩
      intro i1 hi1
      cases hi1
      refine ⟨fun h => ?_, fun h => ?_, fun j hj => ?_⟩
      · show b1.testBit i = true
        rw [hpress h]; simp
      · show b1.testBit i = false
        rw [hrelease h]; simp
      · show b1.testBit j = s.mButtons.testBit j
        rcases hK with h | h
        · rw [hpress h]; simp [hj]
        · rw [hrelease h]; simp [hj]

/-- C4, at a press of `a` while `w` is held: bit 1 gets set, bit 0 stays set. -/
theorem C4_flag_set_records_held_keys_witness :
    ibDefault.Below8 ∧
    ∃ s1, ProcessEvents ibDefault demoPlatform { demoState [⟨KeyPress, 38⟩] with mButtons := 1 } =
        .ok s1 ∧ s1.mButtons < 256 ∧
      (∀ i, keyIndex ibDefault (keyOf demoPlatform ⟨KeyPress, 38⟩) = some i →
        ((⟨KeyPress, 38⟩ : XEvent).type = KeyPress → s1.mButtons.testBit i = true) ∧
        ((⟨KeyPress, 38⟩ : XEvent).type = KeyRelease → s1.mButtons.testBit i = false) ∧
        (∀ j, j ≠ i → s1.mButtons.testBit j = (1 : Nat).testBit j)) ∧
      (keyIndex ibDefault (keyOf demoPlatform ⟨KeyPress, 38⟩) = none → s1.mButtons = 1) ∧
      (keyOf demoPlatform ⟨KeyPress, 38⟩ = XK_Escape → s1.mButtons = 1) :=
  ⟨by decide,
    C4_flag_set_records_held_keys ibDefault (by decide) demoPlatform
      { demoState [⟨KeyPress, 38⟩] with mButtons := 1 } ⟨KeyPress, 38⟩ [] rfl (by decide)
      (Or.inl rfl)⟩

theorem toUnsigned_of_nonneg {i : Int} (h0 : 0 ≤ i) (h1 : i < 2 ^ 31) :
    toUnsigned i = i.toNat := by
  unfold toUnsigned
  rw [Int.emod_eq_of_lt h0 (by omega)]

/-- C6: for every state and every window size with non-negative `int`
components reported by the window attributes, handling an `Expose` event sends
exactly one notification, a resize notification whose `WIDTH` parameter is
that width and whose `HEIGHT` parameter is that height, and leaves the flag
set unchanged. -/
theorem C6_expose_sends_resize (ib : InputButtons) (p : Platform) (s : State) (e : XEvent)
    (rest : List XEvent) (hq : s.queue = e :: rest) (hE : e.type = Expose)
    (hw0 : 0 ≤ p.width) (hw1 : p.width < 2 ^ 31) (hh0 : 0 ≤ p.height) (hh1 : p.height < 2 ^ 31) :
    ∃ s1 n, ProcessEvents ib p s = .ok s1 ∧ s1.sent = s.sent ++ [n] ∧
      n.type = .RESIZED ∧
      (∃ w h : Nat, (w : Int) = p.width ∧ (h : Int) = p.height ∧
        n.GetParam .WIDTH = some (.uint w) ∧ n.GetParam .HEIGHT = some (.uint h) ∧
        n = resizedEvent w h) ∧
      s1.mButtons = s.mButtons := by
  rw [ProcessEvents_cons ib p s e rest hq]
  refine ⟨_, resizedEvent (toUnsigned p.width) (toUnsigned p.height),
    handleEvent_expose ib p e _ hE, rfl, rfl, ?_, rfl⟩
  refine ⟨p.width.toNat, p.height.toNat, Int.toNat_of_nonneg hw0, Int.toNat_of_nonneg hh0, ?_, ?_, ?_⟩
  · rw [toUnsigned_of_nonneg hw0 hw1]; rfl
  · rw [toUnsigned_of_nonneg hh0 hh1]; rfl
  · rw [toUnsigned_of_nonneg hw0 hw1, toUnsigned_of_nonneg hh0 hh1]

/-- C6, at an `Expose` event in front of an 800 x 600 window while `w` is held. -/
theorem C6_expose_sends_resize_witness :
    ∃ s1 n, ProcessEvents ibDefault demoPlatform { demoState [⟨Expose, 0⟩] with mButtons := 1 } =
        .ok s1 ∧ s1.sent = [] ++ [n] ∧ n.type = .RESIZED ∧
      (∃ w h : Nat, (w : Int) = 800 ∧ (h : Int) = 600 ∧
        n.GetParam .WIDTH = some (.uint w) ∧ n.GetParam .HEIGHT = some (.uint h) ∧
        n = resizedEvent w h) ∧
      s1.mButtons = 1 :=
  C6_expose_sends_resize ibDefault demoPlatform { demoState [⟨Expose, 0⟩] with mButtons := 1 }
    ⟨Expose, 0⟩ [] rfl rfl (by decide) (by decide) (by decide) (by decide)

/-- C7: with valid `InputButtons` positions, for every prior flag set and
every `KeyPress` or `KeyRelease` whose key is not Escape, the notifications
`ProcessEvents` sends equal the reference evaluated at the flag set as it is
after the update: one input notification carrying it when the key is one of
the six keys, no notification otherwise. -/
theorem C7_key_notifications_match_reference (ib : InputButtons) (h8 : ib.Below8) (p : Platform)
    (s : State) (e : XEvent) (rest : List XEvent) (hq : s.queue = e :: rest)
    (hb : s.mButtons < 256) (hK : e.type = KeyPress ∨ e.type = KeyRelease)
    (hk : keyOf p e ≠ XK_Escape) :
    ∃ s1, ProcessEvents ib p s = .ok s1 ∧
      s1.sent = s.sent ++ referenceKeyNotifications (keyOf p e) s1.mButtons := by
  rw [ProcessEvents_cons ib p s e rest hq]
  have hb1 : ({ s with queue := rest } : State).mButtons < 256 := hb
  cases hi : keyIndex ib (keyOf p e) with
  | none =>
    refine ⟨_, handleEvent_unmapped ib p e _ hK hk hi, ?_⟩
    have hmem : keyOf p e ∉ sixKeys := (keyIndex_eq_none_iff ib _).1 hi
    simp [referenceKeyNotifications, hmem]
  | some i =>
    obtain ⟨b1, hres, -, -, -⟩ := handleEvent_mapped ib h8 p e _ hb1 hK hi
    refine ⟨_, hres, ?_⟩
    have hmem : keyOf p e ∈ sixKeys := (keyIndex_isSome_iff ib _).1 (by rw [hi]; rfl)
    simp [referenceKeyNotifications, hmem]

/-- C7, at a release of `w` while `w` and `a` are held: the input notification
carries the flag set after the update (2), not the prior one (3). -/
theorem C7_key_notifications_match_reference_witness :
    ibDefault.Below8 ∧ keyOf demoPlatform ⟨KeyRelease, 25⟩ ≠ XK_Escape ∧
    referenceKeyNotifications (keyOf demoPlatform ⟨KeyRelease, 25⟩) 2 = [inputEvent 2] ∧
    ProcessEvents ibDefault demoPlatform { demoState [⟨KeyRelease, 25⟩] with mButtons := 3 } =
      .ok { demoState [] with
        mButtons := 2, sent := [inputEvent 2], calls := [.XkbKeycodeToKeysym 25] } ∧
    ∃ s1, ProcessEvents ibDefault demoPlatform { demoState [⟨KeyRelease, 25⟩] with mButtons := 3 } =
        .ok s1 ∧
      s1.sent = [] ++ referenceKeyNotifications (keyOf demoPlatform ⟨KeyRelease, 25⟩) s1.mButtons :=
  ⟨by decide, by decide, by decide, rfl,
    C7_key_notifications_match_reference ibDefault (by decide) demoPlatform
      { demoState [⟨KeyRelease, 25⟩] with mButtons := 3 } ⟨KeyRelease, 25⟩ [] rfl (by decide)
      (Or.inr rfl) (by decide)⟩

/-! ## The reachable flag sets -/

theorem handleEvent_onlyKeyBits (ib : InputButtons) (h8 : ib.Below8) (p : Platform) (e : XEvent)
    (s s1 : State) (hinv : OnlyKeyBits ib s.mButtons) (hstep : handleEvent ib p e s = .ok s1) :
    OnlyKeyBits ib s1.mButtons := by
  by_cases hE : e.type = Expose
  · rw [handleEvent_expose ib p e s hE] at hstep
    cases hstep; exact hinv
  · by_cases hK : e.type = KeyPress ∨ e.type = KeyRelease
    · by_cases hk : keyOf p e = XK_Escape
      · rw [handleEvent_escape ib p e s hK hk] at hstep
        cases hstep; exact hinv
      · cases hi : keyIndex ib (keyOf p e) with
        | none =>
          rw [handleEvent_unmapped ib p e s hK hk hi] at hstep
          cases hstep; exact hinv
        | some i =>
          obtain ⟨b1, hres, hlt, hpress, hrelease⟩ := handleEvent_mapped ib h8 p e s hinv.1 hK hi
          rw [hres] at hstep
          cases hstep
          refine ⟨hlt, fun j hj => ?_⟩
          change b1.testBit j = true at hj
          rcases hK with h | h
          · rw [hpress h] at hj
            by_cases hji : j = i
            · rw [hji]; exact keyIndex_mem_indices hi
            · simp [hji] at hj; exact hinv.2 j hj
          · rw [hrelease h] at hj
            simp at hj; exact hinv.2 j hj.2
    · rw [handleEvent_other ib p e s hE (fun h => hK (Or.inl h)) (fun h => hK (Or.inr h))] at hstep
      cases hstep; exact hinv

theorem Reachable.onlyKeyBits {ib : InputButtons} (h8 : ib.Below8) {s : State}
    (hr : Reachable ib s) : OnlyKeyBits ib s.mButtons := by
  induction hr with
  | fresh display window context queue =>
    exact ⟨by simp [State.fresh], fun j hj => by simp [State.fresh] at hj⟩
  | arrive s events _ ih => exact ih
  | step p s s1 _ hstep ih =>
    cases hq : s.queue with
    | nil =>
      rw [ProcessEvents_nil ib p s hq] at hstep
      cases hstep; exact ih
    | cons e rest =>
      rw [ProcessEvents_cons ib p s e rest hq] at hstep
      exact handleEvent_onlyKeyBits ib h8 p e { s with queue := rest } s1 ih hstep

theorem bitsetCount_le_six {ib : InputButtons} {b : Nat}
    (h : ∀ j, b.testBit j = true → j ∈ ib.indices) : bitsetCount b ≤ 6 := by
  have hnd : ((List.range bitsetSize).filter fun j => b.testBit j).Nodup :=
    List.Nodup.filter _ (List.nodup_range _)
  have hsub : ((List.range bitsetSize).filter fun j => b.testBit j) ⊆ ib.indices := by
    intro j hj
    exact h j (List.mem_filter.1 hj).2
  exact (List.subperm_of_subset hnd hsub).length_le

theorem remaining_positions (ib : InputButtons) (h8 : ib.Below8) (hd : ib.Distinct) :
    ((List.range 8).filter fun j => decide (j ∉ ib.indices)).length = 2 := by
  have hperm : ((List.range 8).filter fun j => decide (j ∈ ib.indices)).Perm ib.indices := by
    rw [List.perm_ext_iff_of_nodup (List.Nodup.filter _ (List.nodup_range _)) hd]
    intro j
    simp only [List.mem_filter, List.mem_range, decide_eq_true_eq]
    exact ⟨fun h => h.2, fun h => ⟨h8 j h, h⟩⟩
  have hlen := hperm.length_eq
  have hsplit := List.length_eq_countP_add_countP (fun j => decide (j ∈ ib.indices)) (List.range 8)
  rw [List.countP_eq_length_filter, List.countP_eq_length_filter, hlen] at hsplit
  have h6 : ib.indices.length = 6 := rfl
  rw [h6, List.length_range] at hsplit
  have hfun : (fun j => decide (j ∉ ib.indices)) =
      (fun j => decide ¬ (decide (j ∈ ib.indices) = true)) := by
    funext j; simp
  rw [hfun]
  omega

/-- C8: with valid `InputButtons` positions, in every state reachable from a
freshly constructed `WindowManager` by events arriving and calls of
`ProcessEvents`, the flag set is an 8-bit value in which every bit that does
not belong to one of the six keys is clear, so at most six bits are set; with
distinct positions exactly two of the eight bits belong to no key. -/
theorem C8_only_key_bits_reachable (ib : InputButtons) (h8 : ib.Below8) (s : State)
    (hr : Reachable ib s) :
    s.mButtons < 256 ∧
    (∀ j, j ∉ ib.indices → s.mButtons.testBit j = false) ∧
    bitsetCount s.mButtons ≤ 6 ∧
    (ib.Distinct → ((List.range 8).filter fun j => decide (j ∉ ib.indices)).length = 2) := by
  obtain ⟨hlt, hbits⟩ := hr.onlyKeyBits h8
  refine ⟨hlt, fun j hj => ?_, bitsetCount_le_six hbits, remaining_positions ib h8⟩
  cases hb : s.mButtons.testBit j with
  | false => rfl
  | true => exact absurd (hbits j hb) hj

/-- C8, at the state reached by pressing `w` and then `a`: bits 6 and 7 are clear. -/
theorem C8_only_key_bits_reachable_witness :
    ibDefault.Below8 ∧ ibDefault.Distinct ∧
    Reachable ibDefault { demoState [] with
      mButtons := 3, sent := [inputEvent 1, inputEvent 3],
      calls := [.XkbKeycodeToKeysym 25, .XkbKeycodeToKeysym 38] } ∧
    (3 : Nat).testBit 6 = false ∧ (3 : Nat).testBit 7 = false ∧ bitsetCount 3 ≤ 6 :=
  have hr : Reachable ibDefault { demoState [] with
      mButtons := 3, sent := [inputEvent 1, inputEvent 3],
      calls := [.XkbKeycodeToKeysym 25, .XkbKeycodeToKeysym 38] } :=
    Reachable.step demoPlatform _ _
      (Reachable.step demoPlatform _ _
        (Reachable.arrive _ [⟨KeyPress, 38⟩] (Reachable.fresh 1 1 1 [⟨KeyPress, 25⟩])) rfl) rfl
  have h := C8_only_key_bits_reachable ibDefault (by decide) _ hr
  ⟨by decide, by decide, hr, h.2.1 6 (by decide), h.2.1 7 (by decide), h.2.2.1⟩

/-! ## `Init` -/

/-- A trace whose only diagnostic sits between two runs of platform calls
splits around a diagnostic in one way only. -/
theorem split_at_diagnostic (cs rest : List InitCall) (d0 d : Diagnostic) :
    ∀ pre post : List InitAction,
      cs.map InitAction.call ++ InitAction.cerr d0 :: rest.map InitAction.call =
        pre ++ InitAction.cerr d :: post →
      d = d0 ∧ post = rest.map InitAction.call := by
  induction cs with
  | nil =>
    intro pre post h
    cases pre with
    | nil =>
      simp only [List.map_nil, List.nil_append, List.cons.injEq, InitAction.cerr.injEq] at h
      exact ⟨h.1.symm, h.2.symm⟩
    | cons a pre =>
      simp only [List.map_nil, List.nil_append, List.cons_append, List.cons.injEq] at h
      have hmem : InitAction.cerr d ∈ rest.map InitAction.call := by
        rw [h.2]; simp
      simp at hmem
  | cons c cs ih =>
    intro pre post h
    cases pre with
    | nil => simp at h
    | cons a pre =>
      simp only [List.map_cons, List.cons_append, List.cons.injEq] at h
      exact ih pre post h.2

/-- A trace of platform calls only contains no diagnostic. -/
theorem no_diagnostic (cs : List InitCall) (d : Diagnostic) (pre post : List InitAction) :
    cs.map InitAction.call ≠ pre ++ InitAction.cerr d :: post := by
  intro h
  have hmem : InitAction.cerr d ∈ cs.map InitAction.call := by rw [h]; simp
  simp at hmem

/-- The shapes of the trace of `Init`: calls then one diagnostic and a return;
or calls, the auto-repeat warning, the last four calls and completion; or calls only. -/
theorem Init_trace_shape (o : InitOutcomes) (windowTitle : String)
    (windowWidth windowHeight windowPositionX windowPositionY : Nat) (s : State) :
    ∃ cs : List InitCall,
      (∃ d0, d0 ≠ .detectableAutoRepeatNotSet ∧
        (Init o windowTitle windowWidth windowHeight windowPositionX windowPositionY s).trace =
          cs.map InitAction.call ++ .cerr d0 :: ([] : List InitCall).map InitAction.call ∧
        (Init o windowTitle windowWidth windowHeight windowPositionX windowPositionY s).exit =
          .returned) ∨
      ((Init o windowTitle windowWidth windowHeight windowPositionX windowPositionY s).trace =
          cs.map InitAction.call ++ .cerr .detectableAutoRepeatNotSet ::
            [InitCall.glXMakeCurrent, .glClearColor, .glXSwapBuffers, .glEnable].map
              InitAction.call ∧
        (Init o windowTitle windowWidth windowHeight windowPositionX windowPositionY s).exit =
          .completed) ∨
      (Init o windowTitle windowWidth windowHeight windowPositionX windowPositionY s).trace =
        cs.map InitAction.call := by
  by_cases h1 : o.display = 0
  · exact ⟨[.XOpenDisplay], Or.inl ⟨.openDisplay, by decide, by simp [Init, h1], by simp [Init, h1]⟩⟩
  by_cases h2 : glxVersionInvalid o.queryVersion o.glxMajor o.glxMinor = true
  · exact ⟨[.XOpenDisplay, .glXQueryVersion],
      Or.inl ⟨.invalidGlxVersion, by decide, by simp [Init, h1, h2], by simp [Init, h1, h2]⟩⟩
  by_cases h3 : o.frameBufferConfigList = 0
  · exact ⟨[.XOpenDisplay, .glXQueryVersion, .glXChooseFBConfig],
      Or.inl ⟨.chooseFBConfig, by decide, by simp [Init, h1, h2, h3], by simp [Init, h1, h2, h3]⟩⟩
  by_cases h4 : o.visualInfo = 0
  · exact ⟨[.XOpenDisplay, .glXQueryVersion, .glXChooseFBConfig, .XFree .frameBufferConfigList,
      .glXGetVisualFromFBConfig], Or.inr (Or.inr (by simp [Init, h1, h2, h3, h4]))⟩
  by_cases h5 : o.window = 0
  · exact ⟨[.XOpenDisplay, .glXQueryVersion, .glXChooseFBConfig, .XFree .frameBufferConfigList,
      .glXGetVisualFromFBConfig, .XCreateColormap,
      .XCreateWindow windowPositionX windowPositionY windowWidth windowHeight],
      Or.inl ⟨.createWindow, by decide, by simp [Init, h1, h2, h3, h4, h5],
        by simp [Init, h1, h2, h3, h4, h5]⟩⟩
  by_cases h6 : o.createContextAttribsARB = 0
  · exact ⟨[.XOpenDisplay, .glXQueryVersion, .glXChooseFBConfig, .XFree .frameBufferConfigList,
      .glXGetVisualFromFBConfig, .XCreateColormap,
      .XCreateWindow windowPositionX windowPositionY windowWidth windowHeight,
      .XFree .visualInfo, .XStoreName windowTitle, .XMapWindow, .glXGetProcAddress],
      Or.inl ⟨.createContextAttribsNotFound, by decide, by simp [Init, h1, h2, h3, h4, h5, h6],
        by simp [Init, h1, h2, h3, h4, h5, h6]⟩⟩
  by_cases h7 : o.context = 0
  · exact ⟨[.XOpenDisplay, .glXQueryVersion, .glXChooseFBConfig, .XFree .frameBufferConfigList,
      .glXGetVisualFromFBConfig, .XCreateColormap,
      .XCreateWindow windowPositionX windowPositionY windowWidth windowHeight,
      .XFree .visualInfo, .XStoreName windowTitle, .XMapWindow, .glXGetProcAddress,
      .glXCreateContextAttribsARB],
      Or.inl ⟨.createContextFailed, by decide, by simp [Init, h1, h2, h3, h4, h5, h6, h7],
        by simp [Init, h1, h2, h3, h4, h5, h6, h7]⟩⟩
  by_cases h8 : o.detectableSet = true
  · exact ⟨[.XOpenDisplay, .glXQueryVersion, .glXChooseFBConfig, .XFree .frameBufferConfigList,
      .glXGetVisualFromFBConfig, .XCreateColormap,
      .XCreateWindow windowPositionX windowPositionY windowWidth windowHeight,
      .XFree .visualInfo, .XStoreName windowTitle, .XMapWindow, .glXGetProcAddress,
      .glXCreateContextAttribsARB, .XkbSetDetectableAutoRepeat,
      .glXMakeCurrent, .glClearColor, .glXSwapBuffers, .glEnable],
      Or.inr (Or.inr (by simp [Init, h1, h2, h3, h4, h5, h6, h7, h8]))⟩
  · exact ⟨[.XOpenDisplay, .glXQueryVersion, .glXChooseFBConfig, .XFree .frameBufferConfigList,
      .glXGetVisualFromFBConfig, .XCreateColormap,
      .XCreateWindow windowPositionX windowPositionY windowWidth windowHeight,
      .XFree .visualInfo, .XStoreName windowTitle, .XMapWindow, .glXGetProcAddress,
      .glXCreateContextAttribsARB, .XkbSetDetectableAutoRepeat],
      Or.inr (Or.inl ⟨by simp [Init, h1, h2, h3, h4, h5, h6, h7, h8],
        by simp [Init, h1, h2, h3, h4, h5, h6, h7, h8]⟩)⟩

/-- C5 (counterexample): when only `XkbSetDetectableAutoRepeat` fails, `Init`
prints a diagnostic and then goes on to issue four more platform calls and
runs to completion. -/
theorem C5_counterexample :
    (Init { goodOutcomes with detectableSet := false } "demo" 800 600 0 0 (demoState [])).trace =
      [.call .XOpenDisplay, .call .glXQueryVersion, .call .glXChooseFBConfig,
        .call (.XFree .frameBufferConfigList), .call .glXGetVisualFromFBConfig,
        .call .XCreateColormap, .call (.XCreateWindow 0 0 800 600), .call (.XFree .visualInfo),
        .call (.XStoreName "demo"), .call .XMapWindow, .call .glXGetProcAddress,
        .call .glXCreateContextAttribsARB, .call .XkbSetDetectableAutoRepeat,
        .cerr .detectableAutoRepeatNotSet,
        .call .glXMakeCurrent, .call .glClearColor, .call .glXSwapBuffers, .call .glEnable] ∧
    (Init { goodOutcomes with detectableSet := false } "demo" 800 600 0 0 (demoState [])).exit =
      .completed :=
  ⟨rfl, rfl⟩

/-- C5 (amended): for every combination of outcomes of the platform calls,
every diagnostic `Init` prints other than the detectable-auto-repeat warning
is the last thing it does before returning, with no platform call after it;
the detectable-auto-repeat warning is followed by exactly the calls
`glXMakeCurrent`, `glClearColor`, `glXSwapBuffers`, `glEnable` and `Init` runs
to completion. -/
theorem C5_diagnostic_then_return (o : InitOutcomes) (windowTitle : String)
    (windowWidth windowHeight windowPositionX windowPositionY : Nat) (s : State)
    (pre post : List InitAction) (d : Diagnostic)
    (hsplit : (Init o windowTitle windowWidth windowHeight windowPositionX windowPositionY s).trace =
      pre ++ .cerr d :: post) :
    (d ≠ .detectableAutoRepeatNotSet →
      post = [] ∧
      (Init o windowTitle windowWidth windowHeight windowPositionX windowPositionY s).exit =
        .returned) ∧
    (d = .detectableAutoRepeatNotSet →
      post = makeCurrentTail ∧
      (Init o windowTitle windowWidth windowHeight windowPositionX windowPositionY s).exit =
        .completed) := by
  obtain ⟨cs, ⟨d0, hd0, htrace, hexit⟩ | ⟨htrace, hexit⟩ | htrace⟩ :=
    Init_trace_shape o windowTitle windowWidth windowHeight windowPositionX windowPositionY s
  · rw [htrace] at hsplit
    obtain ⟨hd, hpost⟩ := split_at_diagnostic cs [] d0 d pre post hsplit
    exact ⟨fun _ => ⟨hpost, hexit⟩, fun h => absurd (hd ▸ h) hd0⟩
  · rw [htrace] at hsplit
    obtain ⟨hd, hpost⟩ := split_at_diagnostic cs _ _ d pre post hsplit
    exact ⟨fun h => absurd hd h, fun _ => ⟨hpost, hexit⟩⟩
  · rw [htrace] at hsplit
    exact absurd hsplit (no_diagnostic cs d pre post)

/-- C5 (amended), at a setup whose window cannot be created. -/
theorem C5_diagnostic_then_return_witness :
    (Init { goodOutcomes with window := 0 } "demo" 800 600 0 0 (demoState [])).trace =
      [.call .XOpenDisplay, .call .glXQueryVersion, .call .glXChooseFBConfig,
        .call (.XFree .frameBufferConfigList), .call .glXGetVisualFromFBConfig,
        .call .XCreateColormap, .call (.XCreateWindow 0 0 800 600)] ++
        .cerr .createWindow :: [] ∧
    (Init { goodOutcomes with window := 0 } "demo" 800 600 0 0 (demoState [])).exit = .returned :=
  ⟨rfl,
    ((C5_diagnostic_then_return { goodOutcomes with window := 0 } "demo" 800 600 0 0 (demoState [])
      [.call .XOpenDisplay, .call .glXQueryVersion, .call .glXChooseFBConfig,
        .call (.XFree .frameBufferConfigList), .call .glXGetVisualFromFBConfig,
        .call .XCreateColormap, .call (.XCreateWindow 0 0 800 600)] [] .createWindow rfl).1
      (by decide)).2⟩

/-- The check expression of the source against the lexicographic order on
(major, minor). -/
theorem glxVersionInvalid_eq_false_iff (queryVersion : Bool) (glxMajor glxMinor : Int) :
    glxVersionInvalid queryVersion glxMajor glxMinor = false ↔
      queryVersion = true ∧ (glxMajor > 1 ∨ (glxMajor = 1 ∧ glxMinor ≥ 3)) := by
  unfold glxVersionInvalid
  cases queryVersion
  · simp
  · simp only [Bool.not_true, Bool.false_or, Bool.or_eq_false_iff, Bool.and_eq_false_imp,
      beq_iff_eq, decide_eq_false_iff_not, not_lt, true_and]
    constructor
    · rintro ⟨h1, h2⟩
      by_cases hm : glxMajor = 1
      · exact Or.inr ⟨hm, h1 hm⟩
      · exact Or.inl (by omega)
    · rintro (h | ⟨h1, h2⟩)
      · exact ⟨fun hm => by omega, by omega⟩
      · exact ⟨fun _ => h2, by omega⟩

/-- A failing check lies at or after the first check that does not pass. -/
theorem checkFails_bounds {o : InitOutcomes} {k : Nat} (hk : o.checkFails k) :
    1 ≤ k ∧
    (o.display ≠ 0 → 2 ≤ k) ∧
    (o.display ≠ 0 → glxVersionInvalid o.queryVersion o.glxMajor o.glxMinor ≠ true → 3 ≤ k) ∧
    (o.display ≠ 0 → glxVersionInvalid o.queryVersion o.glxMajor o.glxMinor ≠ true →
      o.frameBufferConfigList ≠ 0 → 4 ≤ k) ∧
    (o.display ≠ 0 → glxVersionInvalid o.queryVersion o.glxMajor o.glxMinor ≠ true →
      o.frameBufferConfigList ≠ 0 → o.window ≠ 0 → 5 ≤ k) ∧
    (o.display ≠ 0 → glxVersionInvalid o.queryVersion o.glxMajor o.glxMinor ≠ true →
      o.frameBufferConfigList ≠ 0 → o.window ≠ 0 → o.createContextAttribsARB ≠ 0 → 6 ≤ k) ∧
    (o.display ≠ 0 → glxVersionInvalid o.queryVersion o.glxMajor o.glxMinor ≠ true →
      o.frameBufferConfigList ≠ 0 → o.window ≠ 0 → o.createContextAttribsARB ≠ 0 →
      o.context ≠ 0 → False) := by
  unfold InitOutcomes.checkFails at hk
  rcases hk with ⟨rfl, h⟩ | ⟨rfl, h⟩ | ⟨rfl, h⟩ | ⟨rfl, h⟩ | ⟨rfl, h⟩ | ⟨rfl, h⟩ <;>
    refine ⟨by decide, ?_, ?_, ?_, ?_, ?_, ?_⟩ <;> intros <;>
    first
      | contradiction
      | decide

/-- C9: for every combination of outcomes of the platform calls, `Init`
reaches `glXMakeCurrent` only if the display handle is non-null, the GLX
version check passed, the framebuffer-config list is non-null, the window
handle is non-zero, the entry point `glXCreateContextAttribsARB` was found and
the created context is non-null, and it then ends with `glXMakeCurrent`,
`glClearColor`, `glXSwapBuffers`, `glEnable`; and when one of the six checks
fails, no platform call of a later setup step is issued. -/
theorem C9_make_current_needs_all_checks (o : InitOutcomes) (windowTitle : String)
    (windowWidth windowHeight windowPositionX windowPositionY : Nat) (s : State) :
    (InitAction.call .glXMakeCurrent ∈
        (Init o windowTitle windowWidth windowHeight windowPositionX windowPositionY s).trace →
      o.display ≠ 0 ∧ glxVersionInvalid o.queryVersion o.glxMajor o.glxMinor = false ∧
      o.frameBufferConfigList ≠ 0 ∧ o.window ≠ 0 ∧ o.createContextAttribsARB ≠ 0 ∧
      o.context ≠ 0 ∧
      (∃ pre,
        (Init o windowTitle windowWidth windowHeight windowPositionX windowPositionY s).trace =
          pre ++ makeCurrentTail) ∧
      (Init o windowTitle windowWidth windowHeight windowPositionX windowPositionY s).exit =
        .completed) ∧
    (∀ k, o.checkFails k → ∀ c, InitAction.call c ∈
        (Init o windowTitle windowWidth windowHeight windowPositionX windowPositionY s).trace →
      c.step ≤ k) := by
  by_cases h1 : o.display = 0
  · refine ⟨fun hm => by simp [Init, h1] at hm, fun k hk c hc => ?_⟩
    have hb := (checkFails_bounds hk).1
    simp [Init, h1] at hc
    subst hc; exact hb
  by_cases h2 : glxVersionInvalid o.queryVersion o.glxMajor o.glxMinor = true
  · refine ⟨fun hm => by simp [Init, h1, h2] at hm, fun k hk c hc => ?_⟩
    have hb := (checkFails_bounds hk).2.1 h1
    simp [Init, h1, h2] at hc
    repeat' (rcases hc with hc | hc)
    all_goals exact le_trans (by simp [InitCall.step]) hb
  by_cases h3 : o.frameBufferConfigList = 0
  · refine ⟨fun hm => by simp [Init, h1, h2, h3] at hm, fun k hk c hc => ?_⟩
    have hb := (checkFails_bounds hk).2.2.1 h1 h2
    simp [Init, h1, h2, h3] at hc
    repeat' (rcases hc with hc | hc)
    all_goals exact le_trans (by simp [InitCall.step]) hb
  by_cases h4 : o.visualInfo = 0
  · refine ⟨fun hm => by simp [Init, h1, h2, h3, h4] at hm, fun k hk c hc => ?_⟩
    have hb := (checkFails_bounds hk).2.2.2.1 h1 h2 h3
    simp [Init, h1, h2, h3, h4] at hc
    repeat' (rcases hc with hc | hc)
    all_goals exact le_trans (by simp [InitCall.step]) hb
  by_cases h5 : o.window = 0
  · refine ⟨fun hm => by simp [Init, h1, h2, h3, h4, h5] at hm, fun k hk c hc => ?_⟩
    have hb := (checkFails_bounds hk).2.2.2.1 h1 h2 h3
    simp [Init, h1, h2, h3, h4, h5] at hc
    repeat' (rcases hc with hc | hc)
    all_goals exact le_trans (by simp [InitCall.step]) hb
  by_cases h6 : o.createContextAttribsARB = 0
  · refine ⟨fun hm => by simp [Init, h1, h2, h3, h4, h5, h6] at hm, fun k hk c hc => ?_⟩
    have hb := (checkFails_bounds hk).2.2.2.2.1 h1 h2 h3 h5
    simp [Init, h1, h2, h3, h4, h5, h6] at hc
    repeat' (rcases hc with hc | hc)
    all_goals exact le_trans (by simp [InitCall.step]) hb
  by_cases h7 : o.context = 0
  · refine ⟨fun hm => by simp [Init, h1, h2, h3, h4, h5, h6, h7] at hm, fun k hk c hc => ?_⟩
    have hb := (checkFails_bounds hk).2.2.2.2.2.1 h1 h2 h3 h5 h6
    simp [Init, h1, h2, h3, h4, h5, h6, h7] at hc
    repeat' (rcases hc with hc | hc)
    all_goals exact le_trans (by simp [InitCall.step]) hb
  · refine ⟨fun _ => ⟨h1, by simpa using h2, h3, h5, h6, h7, ?_, ?_⟩, fun k hk c _ => ?_⟩
    · by_cases h8 : o.detectableSet = true
      · refine ⟨[.call .XOpenDisplay, .call .glXQueryVersion, .call .glXChooseFBConfig,
          .call (.XFree .frameBufferConfigList), .call .glXGetVisualFromFBConfig,
          .call .XCreateColormap,
          .call (.XCreateWindow windowPositionX windowPositionY windowWidth windowHeight),
          .call (.XFree .visualInfo), .call (.XStoreName windowTitle), .call .XMapWindow,
          .call .glXGetProcAddress, .call .glXCreateContextAttribsARB,
          .call .XkbSetDetectableAutoRepeat], ?_⟩
        simp [Init, h1, h2, h3, h4, h5, h6, h7, h8, makeCurrentTail]
      · refine ⟨[.call .XOpenDisplay, .call .glXQueryVersion, .call .glXChooseFBConfig,
          .call (.XFree .frameBufferConfigList), .call .glXGetVisualFromFBConfig,
          .call .XCreateColormap,
          .call (.XCreateWindow windowPositionX windowPositionY windowWidth windowHeight),
          .call (.XFree .visualInfo), .call (.XStoreName windowTitle), .call .XMapWindow,
          .call .glXGetProcAddress, .call .glXCreateContextAttribsARB,
          .call .XkbSetDetectableAutoRepeat, .cerr .detectableAutoRepeatNotSet], ?_⟩
        simp [Init, h1, h2, h3, h4, h5, h6, h7, h8, makeCurrentTail]
    · simp [Init, h1, h2, h3, h4, h5, h6, h7]
    · exact absurd ((checkFails_bounds hk).2.2.2.2.2.2 h1 h2 h3 h5 h6 h7) id

/-- C10: once the display is open, `Init` goes on to `glXChooseFBConfig`
exactly when `glXQueryVersion` succeeded and (major, minor) is at least (1, 3)
in lexicographic order; otherwise it reports an invalid GLX version and
returns. -/
theorem C10_glx_version_check (o : InitOutcomes) (windowTitle : String)
    (windowWidth windowHeight windowPositionX windowPositionY : Nat) (s : State)
    (hd : o.display ≠ 0) :
    (InitAction.call .glXChooseFBConfig ∈
        (Init o windowTitle windowWidth windowHeight windowPositionX windowPositionY s).trace ↔
      o.queryVersion = true ∧ (o.glxMajor > 1 ∨ (o.glxMajor = 1 ∧ o.glxMinor ≥ 3))) ∧
    (¬ (o.queryVersion = true ∧ (o.glxMajor > 1 ∨ (o.glxMajor = 1 ∧ o.glxMinor ≥ 3))) →
      (Init o windowTitle windowWidth windowHeight windowPositionX windowPositionY s).trace =
        [.call .XOpenDisplay, .call .glXQueryVersion, .cerr .invalidGlxVersion] ∧
      (Init o windowTitle windowWidth windowHeight windowPositionX windowPositionY s).exit =
        .returned) := by
  rw [← glxVersionInvalid_eq_false_iff]
  by_cases h2 : glxVersionInvalid o.queryVersion o.glxMajor o.glxMinor = true
  · simp [Init, hd, h2]
  · have h2f : glxVersionInvalid o.queryVersion o.glxMajor o.glxMinor = false := by simpa using h2
    refine ⟨⟨fun _ => h2f, fun _ => ?_⟩, fun h => absurd h2f h⟩
    by_cases h3 : o.frameBufferConfigList = 0
    · simp [Init, hd, h2, h3]
    by_cases h4 : o.visualInfo = 0
    · simp [Init, hd, h2, h3, h4]
    by_cases h5 : o.window = 0
    · simp [Init, hd, h2, h3, h4, h5]
    by_cases h6 : o.createContextAttribsARB = 0
    · simp [Init, hd, h2, h3, h4, h5, h6]
    by_cases h7 : o.context = 0
    · simp [Init, hd, h2, h3, h4, h5, h6, h7]
    · by_cases h8 : o.detectableSet = true <;> simp [Init, hd, h2, h3, h4, h5, h6, h7, h8]

/-- C10, at GLX 1.2 (rejected) with the display open. -/
theorem C10_glx_version_check_witness :
    goodOutcomes.display ≠ 0 ∧
    (Init { goodOutcomes with glxMinor := 2 } "demo" 800 600 0 0 (demoState [])).trace =
      [.call .XOpenDisplay, .call .glXQueryVersion, .cerr .invalidGlxVersion] ∧
    (Init { goodOutcomes with glxMinor := 2 } "demo" 800 600 0 0 (demoState [])).exit =
      .returned :=
  ⟨by decide,
    (C10_glx_version_check { goodOutcomes with glxMinor := 2 } "demo" 800 600 0 0 (demoState [])
      (by decide)).2 (by decide)⟩

/-- C9, at a setup in which every call succeeds (the context is made current)
and at one whose window cannot be created (no call of a step after the fourth). -/
theorem C9_make_current_needs_all_checks_witness :
    (InitAction.call .glXMakeCurrent ∈
        (Init goodOutcomes "demo" 800 600 0 0 (demoState [])).trace ∧
      (Init goodOutcomes "demo" 800 600 0 0 (demoState [])).exit = .completed ∧
      goodOutcomes.context ≠ 0) ∧
    ({ goodOutcomes with window := 0 } : InitOutcomes).checkFails 4 ∧
    (∀ c, InitAction.call c ∈
        (Init { goodOutcomes with window := 0 } "demo" 800 600 0 0 (demoState [])).trace →
      c.step ≤ 4) :=
  have hm : InitAction.call .glXMakeCurrent ∈
      (Init goodOutcomes "demo" 800 600 0 0 (demoState [])).trace := by
    simp [Init, goodOutcomes, glxVersionInvalid]
  have hf : ({ goodOutcomes with window := 0 } : InitOutcomes).checkFails 4 :=
    Or.inr (Or.inr (Or.inr (Or.inl ⟨rfl, rfl⟩)))
  have h1 := (C9_make_current_needs_all_checks goodOutcomes "demo" 800 600 0 0 (demoState [])).1 hm
  ⟨⟨hm, h1.2.2.2.2.2.2.2, h1.2.2.2.2.2.1⟩, hf,
    (C9_make_current_needs_all_checks { goodOutcomes with window := 0 } "demo" 800 600 0 0
      (demoState [])).2 4 hf⟩

end WindowManager
